import Mathlib

/-!
Shallow embedding of the trace-analysis core of the repository
(`analyze_traces.py`): the Jaeger trace data model, tag lookup, document
shape sniffing, span selection, latency / throughput / compression /
overhead statistics and the two-configuration comparison, together with a
spec-modelled predicate correlation engine.  Durations are microseconds
(naturals); all derived real-valued statistics are exact rationals.
-/

/-- A typed tag value: Jaeger tags carry booleans, integers, floats or
strings.  Floats are modelled as exact rationals. -/
inductive TagValue where
  | boolV (b : Bool)
  | intV (n : Int)
  | floatV (q : ℚ)
  | strV (s : String)
deriving DecidableEq

/-- One span tag: `{"key": ..., "type": ..., "value": ...}`. -/
structure Tag where
  key : String
  vtype : String
  value : TagValue
deriving DecidableEq

/-- One span reference: `{"refType": ..., "spanID": ...}`. -/
structure Reference where
  refType : String
  spanID : String
deriving DecidableEq

/-- One span.  A missing `duration` key in the source resolves to `0` via
`span.get('duration', 0)`, so it is modelled as the value `0`; a missing
`tags`/`references` key is modelled as the empty list. -/
structure Span where
  spanID : String
  operationName : String
  duration : Nat
  tags : List Tag
  references : List Reference
deriving DecidableEq

/-- One trace: `{"traceID": ..., "spans": [...]}`. -/
structure Trace where
  traceID : String
  spans : List Span
deriving DecidableEq

/-- Python-level faults the analyzer can raise. -/
inductive PyError where
  | typeError
  | zeroDivision
  | indexError
deriving DecidableEq

/-- Python `/` with its `ZeroDivisionError` semantics. -/
def pyDiv (a b : ℚ) : Except PyError ℚ :=
  if b = 0 then .error .zeroDivision else .ok (a / b)

/-- Does the character sequence `needle` start `hay`? -/
def startsWithChars : List Char → List Char → Bool
  | [], _ => true
  | _ :: _, [] => false
  | c :: cs, d :: ds => c == d && startsWithChars cs ds

/-- Python `needle in hay` for strings (substring containment), over the
character lists. -/
def containsSub (needle : List Char) : List Char → Bool
  | [] => startsWithChars needle []
  | d :: ds => startsWithChars needle (d :: ds) || containsSub needle ds

/-- A parsed top-level JSON document as fed to `_extract_traces`.  An
object is recorded by its optional `data` field (the only field the code
reads); the `data` field, when present, holds the trace array of the
export format. -/
inductive Document where
  | jobj (dataField : Option (List Trace))
  | jarr (traces : List Trace)
  | jstr (s : String)
  | jnum (q : ℚ)
  | jbool (b : Bool)
  | jnull
deriving DecidableEq

/-- The outcome of `_extract_traces`: the traces plus whether the
"Unexpected JSON structure" warning was printed. -/
structure Extracted where
  traces : List Trace
  warned : Bool
deriving DecidableEq

/-- `_extract_traces`.  `if 'data' in data` is Python membership: key
lookup on an object, substring test on a string (where a hit then crashes
on `data['data']` with a `TypeError`), and a `TypeError` outright on
non-iterable scalars; `elif isinstance(data, list)` returns a bare array
(whose trace objects never equal the string `'data'`); anything else
prints a warning and yields the empty list. -/
def extractTraces : Document → Except PyError Extracted
  | .jobj (some ts) => .ok ⟨ts, false⟩
  | .jobj none => .ok ⟨[], true⟩
  | .jarr ts => .ok ⟨ts, false⟩
  | .jstr s =>
      if containsSub ("data".data) s.data then .error .typeError
      else .ok ⟨[], true⟩
  | .jnum _ => .error .typeError
  | .jbool _ => .error .typeError
  | .jnull => .error .typeError

/-- `_get_span_duration_ms`: microseconds to milliseconds. -/
def getSpanDurationMs (s : Span) : ℚ :=
  (s.duration : ℚ) / 1000

/-- `_get_span_attribute`: linear scan of the tag list for the key; the
type dispatch of the source returns the value unchanged in every branch;
a missing key resolves to the supplied default. -/
def getSpanAttribute (s : Span) (key : String) (default : Option TagValue) :
    Option TagValue :=
  match s.tags.find? (fun t => t.key == key) with
  | some t =>
      if t.vtype == "bool" then some t.value
      else if t.vtype == "int64" || t.vtype == "float64" then some t.value
      else some t.value
  | none => default

/-- `_get_all_spans_by_name`: spans with the given operation name, in
trace order then span order. -/
def getAllSpansByName : List Trace → String → List Span
  | [], _ => []
  | t :: rest, name =>
      t.spans.filter (fun s => s.operationName == name)
        ++ getAllSpansByName rest name

/-- Does the span carry a `CHILD_OF` reference to a span id in `ids`? -/
def hasParent (ids : List String) (s : Span) : Bool :=
  s.references.any (fun r => r.refType == "CHILD_OF" && ids.contains r.spanID)

/-- `_get_root_spans`: per trace, the spans with no `CHILD_OF` reference
into the same trace's span-id set. -/
def getRootSpans : List Trace → List Span
  | [] => []
  | t :: rest =>
      t.spans.filter (fun s => !hasParent (t.spans.map Span.spanID) s)
        ++ getRootSpans rest

/-- The span selection of `analyze_client_performance`: spans named
`client_span`, falling back to root spans when none exist. -/
def selectClientSpans (traces : List Trace) : List Span :=
  let cs := getAllSpansByName traces "client_span"
  if cs = [] then getRootSpans traces else cs

/-- `statistics.mean` (exact): sum over length. -/
def listMean (l : List ℚ) : ℚ :=
  l.sum / l.length

/-- Python `min` over a list (the analyzer only applies it to non-empty
lists; the empty case is given the junk value `0`). -/
def listMin : List ℚ → ℚ
  | [] => 0
  | x :: xs => xs.foldl min x

/-- Python `max` over a list. -/
def listMax : List ℚ → ℚ
  | [] => 0
  | x :: xs => xs.foldl max x

/-- Ascending sort of rationals, as `sorted` produces. -/
def sortQ (l : List ℚ) : List ℚ :=
  l.insertionSort (· ≤ ·)

/-- `statistics.median`: middle of the sorted list, or the mean of the two
middle elements for even length. -/
def medianQ (l : List ℚ) : ℚ :=
  let s := sortQ l
  let n := s.length
  if n = 0 then 0
  else if n % 2 = 1 then s.getD (n / 2) 0
  else (s.getD (n / 2 - 1) 0 + s.getD (n / 2) 0) / 2

/-- The square of `statistics.stdev`: the sample variance, with the
`n - 1` denominator.  The standard deviation itself is its non-negative
square root, which is irrational in general, so statistics carry the
square. -/
def sampleVarQ (l : List ℚ) : ℚ :=
  let m := listMean l
  (l.map (fun x => (x - m) ^ 2)).sum / ((l.length : ℚ) - 1)

/-- The latency block of `analyze_client_performance` (exact rationals;
`stdevSq` is the square of the reported standard deviation). -/
structure LatencyStatsQ where
  average : ℚ
  minV : ℚ
  maxV : ℚ
  median : ℚ
  stdevSq : ℚ
deriving DecidableEq

/-- The per-span latency list the client analysis accumulates: every
selected span contributes its duration in milliseconds. -/
def clientLatencies (spans : List Span) : List ℚ :=
  spans.map getSpanDurationMs

/-- Lines 140-150 of the source: mean, min, max, median over the latency
list, and the sample standard deviation when there is more than one
sample, else `0`. -/
def latencyStatsOf (spans : List Span) : LatencyStatsQ :=
  let l := clientLatencies spans
  { average := listMean l
    minV := listMin l
    maxV := listMax l
    median := medianQ l
    stdevSq := if 1 < l.length then sampleVarQ l else 0 }

/-- Python truthiness of an optional tag value (`None` and the zero /
empty values are falsy). -/
def pyTruthy : Option TagValue → Bool
  | none => false
  | some (.boolV b) => b
  | some (.intV n) => n != 0
  | some (.floatV q) => q != 0
  | some (.strV s) => s.length != 0

/-- Python `int(...)` on a tag value (string parsing is not modelled: the
tags this is applied to are `int64` counters). -/
def pyInt : TagValue → Int
  | .boolV b => if b then 1 else 0
  | .intV n => n
  | .floatV q => q.num / (q.den : Int)
  | .strV _ => 0

/-- Python `float(...)` on a tag value (string parsing is not modelled:
the tag this is applied to is a `float64` ratio). -/
def pyFloat : TagValue → ℚ
  | .boolV b => if b then 1 else 0
  | .intV n => (n : ℚ)
  | .floatV q => q
  | .strV _ => 0

/-- `int` of an optional value, with `0` for `None`. -/
def pyIntOpt : Option TagValue → Int
  | none => 0
  | some v => pyInt v

/-- Lines 132-138 of the source: for each span, look the key up with
default `0`, and append `int(value)` only when the value is truthy — a
zero or missing counter drops the span from the list. -/
def extractTruthyInts (spans : List Span) (key : String) : List Int :=
  spans.filterMap (fun s =>
    let v := getSpanAttribute s key (some (.intV 0))
    if pyTruthy v then some (pyIntOpt v) else none)

/-- The throughput loop of lines 158-167: walk the latency list with its
enumeration index `i`; when the latency is positive and `i` is still
within the files list, divide `files[i]` and `bytes[i]` by the latency in
seconds (`bytes[i]` unguarded: an `IndexError` if the bytes list is
shorter), and derive mbps as `bytes_per_sec * 8 / (1024 * 1024)`.
Triples are (files/sec, bytes/sec, mbps). -/
def throughputLoop (files bytesL : List Int) :
    List ℚ → Nat → Except PyError (List (ℚ × ℚ × ℚ))
  | [], _ => .ok []
  | lat :: rest, i =>
      if 0 < lat ∧ i < files.length then
        match bytesL[i]? with
        | none => .error .indexError
        | some b =>
            let latSec := lat / 1000
            let fps := (files.getD i 0 : ℚ) / latSec
            let bps := (b : ℚ) / latSec
            let mbps := bps * 8 / (1024 * 1024)
            match throughputLoop files bytesL rest (i + 1) with
            | .error e => .error e
            | .ok l => .ok ((fps, bps, mbps) :: l)
      else throughputLoop files bytesL rest (i + 1)

/-- The throughput derivation of `analyze_client_performance`: run the
loop over the truthy-filtered `total_files` / `total_bytes` lists, and
only when both lists are non-empty (otherwise no throughput section is
produced, modelled as the empty list). -/
def clientThroughput (spans : List Span) : Except PyError (List (ℚ × ℚ × ℚ)) :=
  let latencies := clientLatencies spans
  let files := extractTruthyInts spans "total_files"
  let bytesL := extractTruthyInts spans "total_bytes"
  if files ≠ [] ∧ bytesL ≠ [] then throughputLoop files bytesL latencies 0
  else .ok []

/-- The throughput derivation as the spec words it: each span's own
`total_files` / `total_bytes` value divided by that same span's latency
in seconds, spans with non-positive latency excluded. -/
def throughputPerSpan (spans : List Span) : List (ℚ × ℚ × ℚ) :=
  spans.filterMap (fun s =>
    let lat := getSpanDurationMs s
    if 0 < lat then
      let latSec := lat / 1000
      let f := (pyIntOpt (getSpanAttribute s "total_files" (some (.intV 0))) : ℚ)
      let b := (pyIntOpt (getSpanAttribute s "total_bytes" (some (.intV 0))) : ℚ)
      some (f / latSec, b / latSec, b / latSec * 8 / (1024 * 1024))
    else none)

/-- The zipped reference form of the throughput loop under full
alignment: latency, files and bytes walked in lockstep. -/
def zipTriples : List ℚ → List Int → List Int → List (ℚ × ℚ × ℚ)
  | lat :: lats, f :: fs, b :: bs =>
      if 0 < lat then
        ((f : ℚ) / (lat / 1000), (b : ℚ) / (lat / 1000),
          (b : ℚ) / (lat / 1000) * 8 / (1024 * 1024)) :: zipTriples lats fs bs
      else zipTriples lats fs bs
  | _, _, _ => []

/-- Is the span's `is_compressed` tag truthy (default `None`, falsy)? -/
def isCompressedTruthy (s : Span) : Bool :=
  pyTruthy (getSpanAttribute s "is_compressed" none)

/-- The span's `compression_ratio` tag, `None` when absent. -/
def ratioTag (s : Span) : Option TagValue :=
  getSpanAttribute s "compression_ratio" none

/-- The compression block of `analyze_file_operations` (lines 313-325):
truthy `is_compressed` puts the span in the compressed bucket, and its
ratio joins the ratio list only when the `compression_ratio` tag is not
`None`; otherwise the span is counted uncompressed. -/
structure CompressionStatsQ where
  compressedCount : Nat
  uncompressedCount : Nat
  ratioList : List ℚ
deriving DecidableEq

/-- The compression accumulation loop, span by span in list order. -/
def compressionStats : List Span → CompressionStatsQ
  | [] => ⟨0, 0, []⟩
  | s :: rest =>
      let r := compressionStats rest
      if isCompressedTruthy s then
        match ratioTag s with
        | some v =>
            ⟨r.compressedCount + 1, r.uncompressedCount, pyFloat v :: r.ratioList⟩
        | none => ⟨r.compressedCount + 1, r.uncompressedCount, r.ratioList⟩
      else ⟨r.compressedCount, r.uncompressedCount + 1, r.ratioList⟩

/-- `sum(len(trace.get('spans', [])) for trace in traces)`. -/
def totalSpanCount : List Trace → Nat
  | [] => 0
  | t :: rest => t.spans.length + totalSpanCount rest

/-- Bump the count of one operation name in an insertion-ordered
association list (the `defaultdict(int)` of the source). -/
def bumpCount : List (String × Nat) → String → List (String × Nat)
  | [], k => [(k, 1)]
  | (k', n) :: rest, k =>
      if k' == k then (k', n + 1) :: rest else (k', n) :: bumpCount rest k

/-- The per-operation span counts of `analyze_tracing_overhead`. -/
def spanTypeCounts (traces : List Trace) : List (String × Nat) :=
  traces.foldl (fun acc t =>
    t.spans.foldl (fun a s => bumpCount a s.operationName) acc) []

/-- The output record of `analyze_tracing_overhead`. -/
structure OverheadStats where
  totalSpans : Nat
  avgSpansPerTrace : ℚ
  spanCounts : List (String × Nat)
deriving DecidableEq

/-- `analyze_tracing_overhead` (lines 371-394): extract the traces, total
the spans, and divide by `len(traces)` with no guard on the divisor. -/
def analyzeTracingOverhead (d : Document) : Except PyError OverheadStats :=
  match extractTraces d with
  | .error e => .error e
  | .ok e =>
      let total := totalSpanCount e.traces
      match pyDiv (total : ℚ) (e.traces.length : ℚ) with
      | .error e2 => .error e2
      | .ok avg => .ok ⟨total, avg, spanTypeCounts e.traces⟩

/-- The output record of `compare_sampling_rates`: figures the function
prints, with `none` for a figure whose guard suppressed it. -/
structure CompareOutput where
  totalSpans1 : Nat
  totalSpans2 : Nat
  spanReduction : Option ℚ
  latencyDelta : Option ℚ
  overheadPct : Option ℚ
deriving DecidableEq

/-- `compare_sampling_rates` (lines 396-436) on the two extracted trace
lists: span reduction over total span counts when both sides have at
least one trace (an unguarded division by the first side's total span
count); then, only when both sides have `client_span` spans, the absolute
mean-latency difference, and the overhead percentage only when the second
mean is positive. -/
def compareSamplingRates (traces1 traces2 : List Trace) :
    Except PyError CompareOutput :=
  let t1 := totalSpanCount traces1
  let t2 := totalSpanCount traces2
  let redE : Except PyError (Option ℚ) :=
    if 0 < traces1.length ∧ 0 < traces2.length then
      match pyDiv ((t1 : ℚ) - (t2 : ℚ)) (t1 : ℚ) with
      | .error e => .error e
      | .ok q => .ok (some (q * 100))
    else .ok none
  match redE with
  | .error e => .error e
  | .ok red =>
      let cs1 := getAllSpansByName traces1 "client_span"
      let cs2 := getAllSpansByName traces2 "client_span"
      if cs1 ≠ [] ∧ cs2 ≠ [] then
        let m1 := listMean (cs1.map getSpanDurationMs)
        let m2 := listMean (cs2.map getSpanDurationMs)
        let ov := if 0 < m2 then some ((m1 - m2) / m2 * 100) else none
        .ok ⟨t1, t2, red, some |m1 - m2|, ov⟩
      else .ok ⟨t1, t2, red, none, none⟩

/-- Modelled from the spec: one run of the predicate correlation engine
(the `StatisticalDebugger`, whose source file is not among the analyzed
sources; only `analyze_traces.py`, `server.py` and `test.py` are).  A run
is a success flag plus the observed boolean predicates. -/
structure RunRec where
  runId : String
  success : Bool
  predicates : List (String × Bool)
deriving DecidableEq

/-- Modelled from the spec: per-predicate true-counts by outcome. -/
structure PredCounts where
  trueUnderSuccess : Nat
  trueUnderFailure : Nat
deriving DecidableEq

/-- Modelled from the spec: the accumulating state — the run log plus the
insertion-ordered per-predicate counters. -/
structure DebuggerState where
  runs : List RunRec
  stats : List (String × PredCounts)
deriving DecidableEq

/-- The empty accumulator. -/
def emptyDebugger : DebuggerState := ⟨[], []⟩

/-- Modelled from the spec: bump one predicate's counter for the given
outcome, appending a fresh entry on first observation. -/
def bumpStat : List (String × PredCounts) → String → Bool →
    List (String × PredCounts)
  | [], name, success => [(name, if success then ⟨1, 0⟩ else ⟨0, 1⟩)]
  | (n, c) :: rest, name, success =>
      if n == name then
        (n, if success then ⟨c.trueUnderSuccess + 1, c.trueUnderFailure⟩
            else ⟨c.trueUnderSuccess, c.trueUnderFailure + 1⟩) :: rest
      else (n, c) :: bumpStat rest name success

/-- Modelled from the spec: `add_run` appends to the run log and, for each
predicate present and true, bumps its counter for the run's outcome. -/
def addRun (st : DebuggerState) (r : RunRec) : DebuggerState :=
  ⟨st.runs ++ [r],
    r.predicates.foldl
      (fun acc p => if p.2 then bumpStat acc p.1 r.success else acc) st.stats⟩

/-- Failing runs added so far. -/
def totalFailure (st : DebuggerState) : Nat :=
  st.runs.countP (fun r => !r.success)

/-- Successful runs added so far. -/
def totalSuccess (st : DebuggerState) : Nat :=
  st.runs.countP (fun r => r.success)

/-- Modelled from the spec: one ranked output row. -/
structure MetricResult where
  name : String
  failureMetric : ℚ
  contextMetric : ℚ
  increaseMetric : ℚ
  trueFail : Nat
  trueSucc : Nat
  totalTrue : Nat
deriving DecidableEq

/-- Insert a row into a descending-by-increase list, after all rows with
an equal or greater metric (stable ties). -/
def insertDesc (x : MetricResult) : List MetricResult → List MetricResult
  | [] => [x]
  | y :: ys =>
      if y.increaseMetric < x.increaseMetric then x :: y :: ys
      else y :: insertDesc x ys

/-- Stable descending sort by the increase metric. -/
def sortDesc : List MetricResult → List MetricResult
  | [] => []
  | x :: xs => insertDesc x (sortDesc xs)

/-- Modelled from the spec: the result set plus the `NoFailuresObserved`
indicator. -/
structure MetricsOutput where
  rows : List MetricResult
  noFailures : Bool
deriving DecidableEq

/-- Modelled from the spec: `compute_metrics` short-circuits to an empty,
flagged result when no failing run was added; otherwise each recorded
predicate yields `F = true_under_failure / total_failure`,
`C = true_under_success / total_success` (zero when no successes) and
`Increase = F - C`, ranked descending by increase. -/
def computeMetrics (st : DebuggerState) : MetricsOutput :=
  let tf := totalFailure st
  if tf = 0 then ⟨[], true⟩
  else
    let ts := totalSuccess st
    let rows := st.stats.map (fun p =>
      let f : ℚ := (p.2.trueUnderFailure : ℚ) / (tf : ℚ)
      let c : ℚ := if ts = 0 then 0 else (p.2.trueUnderSuccess : ℚ) / (ts : ℚ)
      ⟨p.1, f, c, f - c, p.2.trueUnderFailure, p.2.trueUnderSuccess,
        p.2.trueUnderFailure + p.2.trueUnderSuccess⟩)
    ⟨sortDesc rows, false⟩

/-- An `int64` tag. -/
def intTag (k : String) (n : Int) : Tag := ⟨k, "int64", .intV n⟩

/-- A bare `client_span` span with the given id and duration. -/
def demoDur (id : String) (d : Nat) : Span := ⟨id, "client_span", d, [], []⟩

/-- Three spans with durations 1000, 2000, 3000 microseconds. -/
def demoThree : List Span :=
  [demoDur "a" 1000, demoDur "b" 2000, demoDur "c" 3000]

/-- A span whose file count is the (falsy) zero, with a byte count of 5. -/
def cxSpanZero : Span :=
  ⟨"s0", "client_span", 1000000,
    [intTag "total_files" 0, intTag "total_bytes" 5], []⟩

/-- A span with file count 10 and byte count 100. -/
def cxSpanTen : Span :=
  ⟨"s1", "client_span", 2000000,
    [intTag "total_files" 10, intTag "total_bytes" 100], []⟩

/-- One span with latency 1000 ms, file count 10 and byte count 1. -/
def wSpanTen : Span :=
  ⟨"w", "client_span", 1000000,
    [intTag "total_files" 10, intTag "total_bytes" 1], []⟩

/-- A root span not named `client_span`. -/
def demoRootSpan : Span := ⟨"r1", "worker", 500, [], []⟩

/-- A child of `demoRootSpan` via a `CHILD_OF` reference. -/
def demoChildSpan : Span := ⟨"c1", "sub", 100, [], [⟨"CHILD_OF", "r1"⟩]⟩

/-- A trace with one root span and one child span, none named
`client_span`. -/
def demoTrace : Trace := ⟨"t1", [demoRootSpan, demoChildSpan]⟩

/-- A 20-span configuration of `client_span` spans of 1000 us each. -/
def demoTwenty : List Trace := [⟨"tA", List.replicate 20 (demoDur "s" 1000)⟩]

/-- A 10-span configuration of `client_span` spans of 1000 us each. -/
def demoTen : List Trace := [⟨"tB", List.replicate 10 (demoDur "s" 1000)⟩]

/-- One trace holding one `client_span` of duration 1000 us. -/
def cxOneSpan : List Trace := [⟨"tA", [demoDur "s" 1000]⟩]

/-- One trace holding one `client_span` of duration zero. -/
def cxZeroDur : List Trace := [⟨"tB", [demoDur "z" 0]⟩]

/-- One trace holding one span not named `client_span`. -/
def cxNoMatch : List Trace := [⟨"tB", [⟨"x", "other_span", 1000, [], []⟩]⟩]

theorem getSpanAttribute_eq (s : Span) (key : String) (d : Option TagValue) :
    getSpanAttribute s key d =
      match s.tags.find? (fun t => t.key == key) with
      | some t => some t.value
      | none => d := by
  unfold getSpanAttribute
  cases s.tags.find? (fun t => t.key == key) with
  | none => rfl
  | some t =>
      show (if t.vtype == "bool" then some t.value
        else if t.vtype == "int64" || t.vtype == "float64" then some t.value
        else some t.value) = some t.value
      split
      · rfl
      · split <;> rfl

/-- Claim C1 (counterexample): a document whose top level is an object
with no `data` key is not rejected — extraction returns the empty trace
sequence (with a warning), so the load does produce a result instead of
failing with a fatal error. -/
theorem extract_traces_obj_without_data_returns_result :
    extractTraces (Document.jobj none) = .ok ⟨[], true⟩ := rfl

/-- Claim C1 (amended): an unrecognized top-level shape is not a fatal
`FormatError`.  An object without a `data` key, or a string not containing
`data`, degrades to the empty trace sequence with a warning; the only
fatal shapes are non-iterable scalars (numbers, booleans, null) and
strings containing `data`, which raise a `TypeError`. -/
theorem extract_traces_shape_handling (s : String) (q : ℚ) (b : Bool)
    (hs : containsSub ("data".data) s.data = false) :
    extractTraces (Document.jobj none) = .ok ⟨[], true⟩
    ∧ extractTraces (Document.jstr s) = .ok ⟨[], true⟩
    ∧ extractTraces (Document.jnum q) = .error .typeError
    ∧ extractTraces (Document.jbool b) = .error .typeError
    ∧ extractTraces Document.jnull = .error .typeError := by
  refine ⟨rfl, ?_, rfl, rfl, rfl⟩
  simp [extractTraces, hs]

/-- Witness for C1's amended theorem at concrete inputs. -/
theorem extract_traces_shape_handling_witness :
    containsSub ("data".data) ("hello".data) = false
    ∧ extractTraces (Document.jstr "hello") = .ok ⟨[], true⟩
    ∧ extractTraces (Document.jnum 3) = .error .typeError :=
  ⟨by decide, (extract_traces_shape_handling "hello" 3 true (by decide)).2.1,
    (extract_traces_shape_handling "hello" 3 true (by decide)).2.2.1⟩

/-- Claim C9: `_get_span_attribute` yields the value of a tag with the
requested key when one is present, the supplied default when none is, and
is total (never an exception) either way. -/
theorem tag_value_lookup (s : Span) (key : String) (d : Option TagValue) :
    ((∀ t ∈ s.tags, t.key ≠ key) → getSpanAttribute s key d = d)
    ∧ (∀ t ∈ s.tags, t.key = key →
        ∃ u ∈ s.tags, u.key = key ∧ getSpanAttribute s key d = some u.value) := by
  constructor
  · intro h
    rw [getSpanAttribute_eq]
    rw [List.find?_eq_none.mpr (fun t ht => by simpa using h t ht)]
  · intro t ht hk
    cases hfind : s.tags.find? (fun u => u.key == key) with
    | none =>
        exact absurd (by simpa using List.find?_eq_none.mp hfind t ht)
          (by simp [hk])
    | some u =>
        refine ⟨u, List.mem_of_find?_eq_some hfind, ?_, ?_⟩
        · simpa using List.find?_some hfind
        · rw [getSpanAttribute_eq, hfind]

/-- Witness for C9 at a concrete span: a missing key returns the default
without a fault. -/
theorem tag_value_witness :
    getSpanAttribute ⟨"w", "x", 0, [], []⟩ "k" none = none :=
  (tag_value_lookup ⟨"w", "x", 0, [], []⟩ "k" none).1 (by simp)

theorem foldl_addRun_runs (runs : List RunRec) (st : DebuggerState) :
    (runs.foldl addRun st).runs = st.runs ++ runs := by
  induction runs generalizing st with
  | nil => simp
  | cons r rest ih =>
      rw [List.foldl_cons, ih]
      simp [addRun]

/-- Claim C4: with zero failing runs accumulated, `compute_metrics`
returns the empty result set with the no-failures indicator set, and
(being a total function) raises no divide-by-zero fault. -/
theorem compute_metrics_no_failures_flag (runs : List RunRec)
    (h : ∀ r ∈ runs, r.success = true) :
    computeMetrics (runs.foldl addRun emptyDebugger) = ⟨[], true⟩ := by
  have htf : totalFailure (runs.foldl addRun emptyDebugger) = 0 := by
    unfold totalFailure
    rw [foldl_addRun_runs]
    simp only [emptyDebugger, List.nil_append]
    exact List.countP_eq_zero.mpr (fun r hr => by simp [h r hr])
  unfold computeMetrics
  rw [htf]
  rfl

/-- Witness for C4: one successful run. -/
theorem compute_metrics_no_failures_witness :
    computeMetrics ([⟨"r1", true, [("p", true)]⟩].foldl addRun emptyDebugger)
      = ⟨[], true⟩ :=
  compute_metrics_no_failures_flag _
    (by intro r hr; rw [List.mem_singleton] at hr; rw [hr])

/-- Claim C8: the compressed/uncompressed buckets partition the spans by
the truthiness of the `is_compressed` tag, and the ratio list holds
exactly the ratios of compressed spans whose `compression_ratio` tag is
recorded — a compressed span without the ratio tag stays in the
compressed bucket yet contributes no ratio. -/
theorem compression_stats_partition (spans : List Span) :
    (compressionStats spans).compressedCount = spans.countP isCompressedTruthy
    ∧ (compressionStats spans).uncompressedCount
        = spans.countP (fun s => !isCompressedTruthy s)
    ∧ (compressionStats spans).ratioList
        = (spans.filter
            (fun s => isCompressedTruthy s && (ratioTag s).isSome)).map
            (fun s => pyFloat ((ratioTag s).getD (TagValue.boolV false))) := by
  induction spans with
  | nil => exact ⟨rfl, rfl, rfl⟩
  | cons s rest ih =>
      obtain ⟨ih1, ih2, ih3⟩ := ih
      by_cases hc : isCompressedTruthy s
      · cases hr : ratioTag s with
        | some v =>
            refine ⟨?_, ?_, ?_⟩ <;>
              simp [compressionStats, hc, hr, List.countP_cons,
                List.filter_cons, ih1, ih2, ih3]
        | none =>
            refine ⟨?_, ?_, ?_⟩ <;>
              simp [compressionStats, hc, hr, List.countP_cons,
                List.filter_cons, ih1, ih2, ih3]
      · refine ⟨?_, ?_, ?_⟩ <;>
          simp [compressionStats, hc, List.countP_cons,
            List.filter_cons, ih1, ih2, ih3]

/-- Claim C10: the overhead analysis divides the total span count by the
number of traces with no guard: any document yielding at least one trace
succeeds with that average, and any document yielding zero traces raises
a division-by-zero error instead of returning an empty result. -/
theorem overhead_average_unguarded_division (d : Document) (e : Extracted)
    (h : extractTraces d = .ok e) :
    (e.traces ≠ [] →
      analyzeTracingOverhead d =
        .ok ⟨totalSpanCount e.traces,
          (totalSpanCount e.traces : ℚ) / (e.traces.length : ℚ),
          spanTypeCounts e.traces⟩)
    ∧ (e.traces = [] → analyzeTracingOverhead d = .error .zeroDivision) := by
  constructor
  · intro hne
    have hlen : ((e.traces.length : ℚ)) ≠ 0 :=
      Nat.cast_ne_zero.mpr (fun h0 => hne (List.length_eq_zero.mp h0))
    unfold analyzeTracingOverhead
    rw [h]
    simp only [pyDiv, if_neg hlen]
  · intro he
    unfold analyzeTracingOverhead
    rw [h]
    dsimp only
    rw [he]
    simp [pyDiv, totalSpanCount]

/-- Witness for C10: the empty trace array crashes, a one-trace document
does not. -/
theorem overhead_division_witness :
    analyzeTracingOverhead (Document.jarr []) = .error PyError.zeroDivision
    ∧ analyzeTracingOverhead (Document.jarr [demoTrace])
        = .ok ⟨2, (2 : ℚ) / 1, spanTypeCounts [demoTrace]⟩ :=
  ⟨(overhead_average_unguarded_division (Document.jarr []) ⟨[], false⟩
      rfl).2 rfl,
    (overhead_average_unguarded_division (Document.jarr [demoTrace])
      ⟨[demoTrace], false⟩ rfl).1 (by simp)⟩

theorem hasParent_iff (ids : List String) (s : Span) :
    hasParent ids s = true ↔
      ∃ r ∈ s.references, r.refType = "CHILD_OF" ∧ r.spanID ∈ ids := by
  unfold hasParent
  simp [List.any_eq_true, List.elem_iff]

theorem mem_getRootSpans (traces : List Trace) (s : Span) :
    s ∈ getRootSpans traces ↔
      ∃ t ∈ traces, s ∈ t.spans ∧
        ¬ ∃ r ∈ s.references,
            r.refType = "CHILD_OF" ∧ r.spanID ∈ t.spans.map Span.spanID := by
  induction traces with
  | nil => simp [getRootSpans]
  | cons t rest ih =>
      unfold getRootSpans
      rw [List.mem_append, ih, List.mem_filter]
      constructor
      · rintro (⟨hmem, hroot⟩ | ⟨u, hu, hmem, hnp⟩)
        · exact ⟨t, List.mem_cons_self t rest, hmem, by
            rw [← hasParent_iff]
            simpa using hroot⟩
        · exact ⟨u, List.mem_cons_of_mem t hu, hmem, hnp⟩
      · rintro ⟨u, hu, hmem, hnp⟩
        rcases List.mem_cons.mp hu with h | h
        · subst h
          have hfalse : hasParent (u.spans.map Span.spanID) s = false :=
            Bool.eq_false_iff.mpr (fun htrue => hnp ((hasParent_iff _ _).mp htrue))
          exact Or.inl ⟨hmem, by simp [hfalse]⟩
        · exact Or.inr ⟨u, h, hmem, hnp⟩

/-- Claim C7: per trace, the root spans are exactly the spans lacking a
`CHILD_OF` reference whose target id lies in that trace's span-id set;
when no `client_span` exists the selection falls back to these root
spans, and the demo trace (no `client_span`, one unparented span) yields
that span as the sole entry. -/
theorem root_spans_characterization (traces : List Trace) (s : Span) :
    (s ∈ getRootSpans traces ↔
      ∃ t ∈ traces, s ∈ t.spans ∧
        ¬ ∃ r ∈ s.references,
            r.refType = "CHILD_OF" ∧ r.spanID ∈ t.spans.map Span.spanID)
    ∧ (getAllSpansByName traces "client_span" = [] →
        selectClientSpans traces = getRootSpans traces)
    ∧ selectClientSpans [demoTrace] = [demoRootSpan] := by
  refine ⟨mem_getRootSpans traces s, ?_, by decide⟩
  intro h
  simp only [selectClientSpans]
  rw [if_pos h]

/-- Witness for C7 at the demo trace. -/
theorem root_spans_witness :
    getAllSpansByName [demoTrace] "client_span" = []
    ∧ selectClientSpans [demoTrace] = getRootSpans [demoTrace] :=
  ⟨by decide,
    (root_spans_characterization [demoTrace] demoRootSpan).2.1 (by decide)⟩

theorem compare_cx_eval :
    compareSamplingRates cxOneSpan cxNoMatch =
      .ok ⟨1, 1, some 0, none, none⟩ := by
  have e1 : getAllSpansByName cxOneSpan "client_span" = [demoDur "s" 1000] := by
    decide
  have e2 : getAllSpansByName cxNoMatch "client_span" = [] := by decide
  have ht1 : totalSpanCount cxOneSpan = 1 := by decide
  have ht2 : totalSpanCount cxNoMatch = 1 := by decide
  simp only [compareSamplingRates]
  rw [ht1, ht2, e1, e2,
    if_pos (⟨by decide, by decide⟩ :
      0 < cxOneSpan.length ∧ 0 < cxNoMatch.length)]
  norm_num [pyDiv]

/-- Claim C2 (counterexample): the second configuration has zero
`client_span` spans, yet the comparison completes normally — no
`InsufficientData` failure — reporting span reduction but omitting the
latency and overhead figures. -/
theorem compare_no_matching_spans_succeeds :
    compareSamplingRates cxOneSpan cxNoMatch =
      .ok ⟨1, 1, some 0, none, none⟩ :=
  compare_cx_eval

/-- Claim C2 (amended): when either side has zero spans matching the
designated name, any normally-completed comparison omits both the latency
delta and the overhead percentage — no percentage against the empty side
is reported, in particular not as zero — instead of failing with an
`InsufficientData` error. -/
theorem compare_skips_latency_without_matching_spans
    (traces1 traces2 : List Trace) (r : CompareOutput)
    (h : getAllSpansByName traces1 "client_span" = []
      ∨ getAllSpansByName traces2 "client_span" = [])
    (hr : compareSamplingRates traces1 traces2 = .ok r) :
    r.latencyDelta = none ∧ r.overheadPct = none := by
  have hnot : ¬(getAllSpansByName traces1 "client_span" ≠ []
      ∧ getAllSpansByName traces2 "client_span" ≠ []) := by
    rcases h with h | h
    · exact fun hc => hc.1 h
    · exact fun hc => hc.2 h
  simp only [compareSamplingRates] at hr
  rcases hred : (if 0 < traces1.length ∧ 0 < traces2.length then
      match pyDiv ((totalSpanCount traces1 : ℚ) - (totalSpanCount traces2 : ℚ))
        ((totalSpanCount traces1 : ℚ)) with
      | .error e => Except.error e
      | .ok q => Except.ok (some (q * 100))
    else Except.ok none) with e | red
  · rw [hred] at hr
    exact absurd hr (by simp)
  · rw [hred] at hr
    dsimp only at hr
    rw [if_neg hnot] at hr
    cases hr
    exact ⟨rfl, rfl⟩

/-- Witness for C2's amended theorem at the concrete pair. -/
theorem compare_skips_latency_witness :
    getAllSpansByName cxNoMatch "client_span" = []
    ∧ (CompareOutput.mk 1 1 (some 0) none none).latencyDelta = none
    ∧ (CompareOutput.mk 1 1 (some 0) none none).overheadPct = none := by
  have h := compare_skips_latency_without_matching_spans cxOneSpan cxNoMatch
    ⟨1, 1, some 0, none, none⟩ (Or.inr (by decide)) compare_cx_eval
  exact ⟨by decide, h.1, h.2⟩

theorem getAllSpansByName_pos (traces : List Trace) (name : String)
    (h : getAllSpansByName traces name ≠ []) :
    0 < traces.length ∧ 0 < totalSpanCount traces := by
  induction traces with
  | nil => exact absurd rfl h
  | cons t rest ih =>
      refine ⟨Nat.succ_pos _, ?_⟩
      unfold totalSpanCount
      by_cases hf : t.spans.filter (fun s => s.operationName == name) = []
      · have hrec : getAllSpansByName rest name ≠ [] := by
          intro hr
          exact h (by unfold getAllSpansByName; rw [hf, hr]; rfl)
        have := (ih hrec).2
        omega
      · have hspans : t.spans ≠ [] := by
          intro hsp
          exact hf (by rw [hsp]; rfl)
        have := List.length_pos.mpr hspans
        omega

/-- Claim C5 (amended): with at least one matching span on each side, the
comparison reports span reduction `(totalA - totalB) / totalA * 100` and
the absolute difference of the mean latencies, and — provided the second
side's mean latency is positive — the overhead
`(meanA - meanB) / meanB * 100`; with a zero mean on the second side the
overhead figure is omitted. -/
theorem compare_formulas_with_positive_mean (traces1 traces2 : List Trace)
    (h1 : getAllSpansByName traces1 "client_span" ≠ [])
    (h2 : getAllSpansByName traces2 "client_span" ≠ [])
    (hm : 0 < listMean
      ((getAllSpansByName traces2 "client_span").map getSpanDurationMs)) :
    compareSamplingRates traces1 traces2 =
      .ok ⟨totalSpanCount traces1, totalSpanCount traces2,
        some (((totalSpanCount traces1 : ℚ) - (totalSpanCount traces2 : ℚ))
          / (totalSpanCount traces1 : ℚ) * 100),
        some |listMean
            ((getAllSpansByName traces1 "client_span").map getSpanDurationMs)
          - listMean
            ((getAllSpansByName traces2 "client_span").map getSpanDurationMs)|,
        some ((listMean
            ((getAllSpansByName traces1 "client_span").map getSpanDurationMs)
          - listMean
            ((getAllSpansByName traces2 "client_span").map getSpanDurationMs))
          / listMean
            ((getAllSpansByName traces2 "client_span").map getSpanDurationMs)
          * 100)⟩ := by
  obtain ⟨hl1, ht1⟩ := getAllSpansByName_pos traces1 "client_span" h1
  obtain ⟨hl2, _⟩ := getAllSpansByName_pos traces2 "client_span" h2
  have hcast : ((totalSpanCount traces1 : ℚ)) ≠ 0 :=
    Nat.cast_ne_zero.mpr (Nat.pos_iff_ne_zero.mp ht1)
  simp only [compareSamplingRates]
  rw [if_pos ⟨hl1, hl2⟩]
  rw [pyDiv, if_neg hcast]
  dsimp only
  rw [if_pos ⟨h1, h2⟩, if_pos hm]

/-- Claim C5 (counterexample): both sides have one matching span, but the
second side's only span has duration zero, so the mean-latency guard
suppresses the overhead percentage — no `overhead_pct` figure is
returned, against the claim's formula promise. -/
theorem compare_zero_mean_omits_overhead :
    compareSamplingRates cxOneSpan cxZeroDur =
      .ok ⟨1, 1, some 0, some 1, none⟩ := by
  have e1 : getAllSpansByName cxOneSpan "client_span" = [demoDur "s" 1000] := by
    decide
  have e2 : getAllSpansByName cxZeroDur "client_span" = [demoDur "z" 0] := by
    decide
  have ht1 : totalSpanCount cxOneSpan = 1 := by decide
  have ht2 : totalSpanCount cxZeroDur = 1 := by decide
  simp only [compareSamplingRates]
  rw [ht1, ht2, e1, e2,
    if_pos (⟨by decide, by decide⟩ :
      0 < cxOneSpan.length ∧ 0 < cxZeroDur.length)]
  norm_num [pyDiv, listMean, getSpanDurationMs, demoDur]

/-- Witness for C5's amended theorem: a 20-span baseline against a
10-span variant yields a 50.0 percent span reduction. -/
theorem compare_formulas_witness :
    getAllSpansByName demoTwenty "client_span" ≠ []
    ∧ compareSamplingRates demoTwenty demoTen =
        .ok ⟨20, 10, some 50, some 0, some 0⟩ := by
  have e1 : getAllSpansByName demoTwenty "client_span"
      = List.replicate 20 (demoDur "s" 1000) := by decide
  have e2 : getAllSpansByName demoTen "client_span"
      = List.replicate 10 (demoDur "s" 1000) := by decide
  have hd : getSpanDurationMs (demoDur "s" 1000) = 1 := by
    norm_num [getSpanDurationMs, demoDur]
  have hm1 : listMean ((getAllSpansByName demoTwenty "client_span").map
      getSpanDurationMs) = 1 := by
    rw [e1, List.map_replicate, hd]
    norm_num [listMean, List.sum_replicate]
  have hm2 : listMean ((getAllSpansByName demoTen "client_span").map
      getSpanDurationMs) = 1 := by
    rw [e2, List.map_replicate, hd]
    norm_num [listMean, List.sum_replicate]
  refine ⟨by rw [e1]; decide, ?_⟩
  have h := compare_formulas_with_positive_mean demoTwenty demoTen
    (by rw [e1]; decide) (by rw [e2]; decide) (by rw [hm2]; norm_num)
  rw [h, hm1, hm2]
  have ht1 : totalSpanCount demoTwenty = 20 := by decide
  have ht2 : totalSpanCount demoTen = 10 := by decide
  rw [ht1, ht2]
  norm_num

theorem sum_map_div (l : List ℚ) (c : ℚ) :
    (l.map (fun x => x / c)).sum = l.sum / c := by
  induction l with
  | nil => simp
  | cons x xs ih => simp [ih, add_div]

theorem listMean_map_div (l : List ℚ) (c : ℚ) :
    listMean (l.map (fun x => x / c)) = listMean l / c := by
  unfold listMean
  rw [sum_map_div, List.length_map]
  ring

theorem foldl_min_div (l : List ℚ) (a c : ℚ) (hc : 0 ≤ c) :
    (l.map (fun x => x / c)).foldl min (a / c) = l.foldl min a / c := by
  induction l generalizing a with
  | nil => rfl
  | cons x xs ih =>
      simp only [List.map_cons, List.foldl_cons]
      rw [min_div_div_right hc a x, ih]

theorem foldl_max_div (l : List ℚ) (a c : ℚ) (hc : 0 ≤ c) :
    (l.map (fun x => x / c)).foldl max (a / c) = l.foldl max a / c := by
  induction l generalizing a with
  | nil => rfl
  | cons x xs ih =>
      simp only [List.map_cons, List.foldl_cons]
      rw [max_div_div_right hc a x, ih]

theorem listMin_map_div (l : List ℚ) (c : ℚ) (hc : 0 ≤ c) :
    listMin (l.map (fun x => x / c)) = listMin l / c := by
  cases l with
  | nil => simp [listMin]
  | cons x xs =>
      simp only [listMin, List.map_cons]
      exact foldl_min_div xs x c hc

theorem listMax_map_div (l : List ℚ) (c : ℚ) (hc : 0 ≤ c) :
    listMax (l.map (fun x => x / c)) = listMax l / c := by
  cases l with
  | nil => simp [listMax]
  | cons x xs =>
      simp only [listMax, List.map_cons]
      exact foldl_max_div xs x c hc

theorem sortQ_map_div (l : List ℚ) (c : ℚ) (hc : 0 < c) :
    sortQ (l.map (fun x => x / c)) = (sortQ l).map (fun x => x / c) := by
  haveI : IsAntisymm ℚ (fun x1 x2 : ℚ => x1 ≤ x2) :=
    ⟨fun _ _ h1 h2 => le_antisymm h1 h2⟩
  refine List.eq_of_perm_of_sorted (r := (· ≤ ·)) ?_ ?_ ?_
  · exact (List.perm_insertionSort _ _).trans
      (((List.perm_insertionSort (· ≤ ·) l).symm).map _)
  · exact List.sorted_insertionSort _ _
  · exact (List.sorted_insertionSort (· ≤ ·) l).map _
      (fun a b hab => (div_le_div_iff_of_pos_right hc).mpr hab)

theorem getD_map_div (s : List ℚ) (c : ℚ) (i : Nat) (h : i < s.length) :
    (s.map (fun x => x / c)).getD i 0 = s.getD i 0 / c := by
  rw [List.getD_eq_getElem?_getD, List.getD_eq_getElem?_getD,
    List.getElem?_map, List.getElem?_eq_getElem h]
  rfl

theorem medianQ_map_div (l : List ℚ) (c : ℚ) (hc : 0 < c) :
    medianQ (l.map (fun x => x / c)) = medianQ l / c := by
  simp only [medianQ]
  rw [sortQ_map_div l c hc, List.length_map]
  by_cases h0 : (sortQ l).length = 0
  · rw [if_pos h0, if_pos h0, zero_div]
  · rw [if_neg h0, if_neg h0]
    have hlen : 0 < (sortQ l).length := Nat.pos_of_ne_zero h0
    have h2 : (sortQ l).length / 2 < (sortQ l).length :=
      Nat.div_lt_self hlen one_lt_two
    by_cases hodd : (sortQ l).length % 2 = 1
    · rw [if_pos hodd, if_pos hodd]
      exact getD_map_div (sortQ l) c _ h2
    · rw [if_neg hodd, if_neg hodd]
      have h1 : (sortQ l).length / 2 - 1 < (sortQ l).length :=
        lt_of_le_of_lt (Nat.sub_le _ _) h2
      rw [getD_map_div (sortQ l) c _ h1, getD_map_div (sortQ l) c _ h2]
      ring

/-- Claim C6: the latency statistics are the millisecond conversions of
the statistics of the microsecond durations (division by 1000 commutes
with mean, min, max and median); the standard deviation is `0` rather
than an error below two samples; and the 1000/2000/3000-microsecond demo
yields mean 2.0 ms, min 1.0 ms, max 3.0 ms, median 2.0 ms and sample
standard deviation 1.0 (stated by its square). -/
theorem latency_stats_unit_conversion (spans : List Span) (h : spans ≠ []) :
    (latencyStatsOf spans).average
        = listMean (spans.map (fun s => ((s.duration : ℚ)))) / 1000
    ∧ (latencyStatsOf spans).minV
        = listMin (spans.map (fun s => ((s.duration : ℚ)))) / 1000
    ∧ (latencyStatsOf spans).maxV
        = listMax (spans.map (fun s => ((s.duration : ℚ)))) / 1000
    ∧ (latencyStatsOf spans).median
        = medianQ (spans.map (fun s => ((s.duration : ℚ)))) / 1000
    ∧ (spans.length < 2 → (latencyStatsOf spans).stdevSq = 0)
    ∧ latencyStatsOf demoThree = ⟨2, 1, 3, 2, 1⟩ := by
  have hcl : clientLatencies spans
      = (spans.map (fun s => ((s.duration : ℚ)))).map (fun x => x / 1000) := by
    simp only [clientLatencies, List.map_map]
    rfl
  refine ⟨?_, ?_, ?_, ?_, ?_, ?_⟩
  · show listMean (clientLatencies spans) = _
    rw [hcl, listMean_map_div]
  · show listMin (clientLatencies spans) = _
    rw [hcl, listMin_map_div _ _ (by norm_num)]
  · show listMax (clientLatencies spans) = _
    rw [hcl, listMax_map_div _ _ (by norm_num)]
  · show medianQ (clientLatencies spans) = _
    rw [hcl, medianQ_map_div _ _ (by norm_num)]
  · intro hlt
    have hn : ¬ 1 < (clientLatencies spans).length := by
      simp only [clientLatencies, List.length_map]
      omega
    show (if 1 < (clientLatencies spans).length then _ else 0) = 0
    rw [if_neg hn]
  · have h3 : clientLatencies demoThree = [1, 2, 3] := by
      norm_num [clientLatencies, demoThree, demoDur, getSpanDurationMs]
    simp only [latencyStatsOf, h3]
    norm_num [listMean, listMin, listMax, medianQ, sortQ, sampleVarQ,
      List.insertionSort, List.orderedInsert, min_def, max_def]

/-- Witness for C6 at the three-span demo. -/
theorem latency_stats_witness :
    demoThree ≠ [] ∧ latencyStatsOf demoThree = ⟨2, 1, 3, 2, 1⟩ :=
  ⟨by decide, (latency_stats_unit_conversion demoThree (by decide)).2.2.2.2.2⟩

theorem truthy_cons_full (s : Span) (rest : List Span) (key : String)
    (h : (extractTruthyInts (s :: rest) key).length = (s :: rest).length) :
    pyTruthy (getSpanAttribute s key (some (.intV 0))) = true
    ∧ (extractTruthyInts rest key).length = rest.length
    ∧ extractTruthyInts (s :: rest) key
        = pyIntOpt (getSpanAttribute s key (some (.intV 0)))
          :: extractTruthyInts rest key := by
  by_cases ht : pyTruthy (getSpanAttribute s key (some (.intV 0))) = true
  · have hcons : extractTruthyInts (s :: rest) key
        = pyIntOpt (getSpanAttribute s key (some (.intV 0)))
          :: extractTruthyInts rest key := by
      simp only [extractTruthyInts, List.filterMap_cons, ht, if_true]
    refine ⟨ht, ?_, hcons⟩
    rw [hcons] at h
    simpa using h
  · exfalso
    have hskip : extractTruthyInts (s :: rest) key
        = extractTruthyInts rest key := by
      simp only [extractTruthyInts, List.filterMap_cons,
        Bool.not_eq_true] at ht ⊢
      rw [ht]
      simp
    rw [hskip] at h
    have hle : (extractTruthyInts rest key).length ≤ rest.length :=
      List.length_filterMap_le _ _
    simp only [List.length_cons] at h
    omega

theorem throughputLoop_full (files bytesL pre preB : List Int) (lats : List ℚ)
    (hpre : preB.length = pre.length)
    (hf : files.length = lats.length) (hb : bytesL.length = lats.length) :
    throughputLoop (pre ++ files) (preB ++ bytesL) lats pre.length
      = .ok (zipTriples lats files bytesL) := by
  induction lats generalizing files bytesL pre preB with
  | nil =>
      cases files with
      | nil =>
          cases bytesL with
          | nil => rfl
          | cons b bs => simp at hb
      | cons f fs => simp at hf
  | cons lat lats ih =>
      cases files with
      | nil => simp at hf
      | cons f fs =>
          cases bytesL with
          | nil => simp at hb
          | cons b bs =>
              have hrec : throughputLoop (pre ++ f :: fs) (preB ++ b :: bs)
                  lats (pre.length + 1) = .ok (zipTriples lats fs bs) := by
                have h1 := ih fs bs (pre ++ [f]) (preB ++ [b])
                  (by simp [hpre]) (by simpa using hf) (by simpa using hb)
                simpa [List.append_assoc, List.length_append] using h1
              simp only [throughputLoop]
              by_cases hlat : 0 < lat
              · have hidx : pre.length < (pre ++ f :: fs).length := by
                  simp [List.length_append]
                rw [if_pos ⟨hlat, hidx⟩]
                have hbq : (preB ++ b :: bs)[pre.length]? = some b := by
                  rw [List.getElem?_append_right (by omega)]
                  simp [hpre]
                rw [hbq]
                have hgf : (pre ++ f :: fs).getD pre.length 0 = f := by
                  rw [List.getD_eq_getElem?_getD,
                    List.getElem?_append_right (le_refl pre.length)]
                  simp
                dsimp only
                rw [hgf, hrec]
                simp only [zipTriples]
                rw [if_pos hlat]
              · rw [if_neg (fun hc => hlat hc.1)]
                rw [hrec]
                simp only [zipTriples]
                rw [if_neg hlat]

theorem zipTriples_eq_perSpan (spans : List Span)
    (hf : (extractTruthyInts spans "total_files").length = spans.length)
    (hb : (extractTruthyInts spans "total_bytes").length = spans.length) :
    zipTriples (clientLatencies spans) (extractTruthyInts spans "total_files")
      (extractTruthyInts spans "total_bytes") = throughputPerSpan spans := by
  induction spans with
  | nil => rfl
  | cons s rest ih =>
      obtain ⟨hts, hfr, hfe⟩ := truthy_cons_full s rest "total_files" hf
      obtain ⟨hbs, hbr, hbe⟩ := truthy_cons_full s rest "total_bytes" hb
      rw [hfe, hbe]
      simp only [clientLatencies, List.map_cons, zipTriples]
      have ihq : zipTriples (clientLatencies rest)
          (extractTruthyInts rest "total_files")
          (extractTruthyInts rest "total_bytes") = throughputPerSpan rest :=
        ih hfr hbr
      simp only [clientLatencies] at ihq
      rw [ihq]
      simp only [throughputPerSpan, List.filterMap_cons]
      by_cases hlat : 0 < getSpanDurationMs s
      · rw [if_pos hlat, if_pos hlat]
      · rw [if_neg hlat, if_neg hlat]

/-- Claim C3 (amended): provided every selected span carries a truthy
(non-zero) `total_files` and `total_bytes` tag — so the truthy-filtered
lists stay aligned with the spans — the throughput derivation divides
each span's own paired count and byte value by that same span's latency
in seconds, excludes spans with non-positive latency from the derivation
while every span (whatever its latency) still enters the latency list,
and derives mbps as bytes-per-second times 8 over 1024*1024. -/
theorem client_throughput_aligned_per_span (spans : List Span)
    (hf : (extractTruthyInts spans "total_files").length = spans.length)
    (hb : (extractTruthyInts spans "total_bytes").length = spans.length) :
    clientThroughput spans = .ok (throughputPerSpan spans)
    ∧ (∀ s ∈ spans, getSpanDurationMs s ∈ clientLatencies spans)
    ∧ (∀ x ∈ throughputPerSpan spans,
        x.2.2 = x.2.1 * 8 / (1024 * 1024)) := by
  refine ⟨?_, ?_, ?_⟩
  · by_cases hsp : spans = []
    · subst hsp
      simp [clientThroughput, extractTruthyInts, throughputPerSpan]
    · have h1 : extractTruthyInts spans "total_files" ≠ [] := by
        intro hempty
        rw [hempty] at hf
        exact hsp (List.length_eq_zero.mp hf.symm)
      have h2 : extractTruthyInts spans "total_bytes" ≠ [] := by
        intro hempty
        rw [hempty] at hb
        exact hsp (List.length_eq_zero.mp hb.symm)
      unfold clientThroughput
      rw [if_pos ⟨h1, h2⟩]
      have hf' : (extractTruthyInts spans "total_files").length
          = (clientLatencies spans).length := by
        rw [hf]
        simp [clientLatencies]
      have hb' : (extractTruthyInts spans "total_bytes").length
          = (clientLatencies spans).length := by
        rw [hb]
        simp [clientLatencies]
      have hloop := throughputLoop_full (extractTruthyInts spans "total_files")
        (extractTruthyInts spans "total_bytes") [] [] (clientLatencies spans)
        rfl hf' hb'
      simp only [List.nil_append, List.length_nil] at hloop
      rw [hloop, zipTriples_eq_perSpan spans hf hb]
  · intro s hs
    exact List.mem_map_of_mem _ hs
  · intro x hx
    simp only [throughputPerSpan, List.mem_filterMap] at hx
    obtain ⟨s, hs, hsx⟩ := hx
    by_cases hlat : 0 < getSpanDurationMs s
    · rw [if_pos hlat] at hsx
      cases hsx
      rfl
    · rw [if_neg hlat] at hsx
      cases hsx

/-- Claim C3 (counterexample): two spans, both carrying file-count and
byte-count tags, the first count being zero.  The truthy filter drops the
zero count, so the loop divides the second span's file count by the first
span's latency: the code yields one triple `(10, 5, _)` where the
per-span derivation yields `(0, 5, _)` and `(5, 50, _)`. -/
theorem client_throughput_misaligned_pairing :
    clientThroughput [cxSpanZero, cxSpanTen]
      ≠ .ok (throughputPerSpan [cxSpanZero, cxSpanTen]) := by
  have ef : extractTruthyInts [cxSpanZero, cxSpanTen] "total_files"
      = [10] := by decide
  have eb : extractTruthyInts [cxSpanZero, cxSpanTen] "total_bytes"
      = [5, 100] := by decide
  have hlat : clientLatencies [cxSpanZero, cxSpanTen] = [1000, 2000] := by
    norm_num [clientLatencies, getSpanDurationMs, cxSpanZero, cxSpanTen]
  have hL : clientThroughput [cxSpanZero, cxSpanTen]
      = .ok [((10 : ℚ), (5 : ℚ), (5 : ℚ) * 8 / (1024 * 1024))] := by
    simp only [clientThroughput, ef, eb, hlat]
    rw [if_pos ⟨by simp, by simp⟩]
    norm_num [throughputLoop]
  have hR : throughputPerSpan [cxSpanZero, cxSpanTen]
      = [((0 : ℚ), (5 : ℚ), (5 : ℚ) * 8 / (1024 * 1024)),
         ((5 : ℚ), (50 : ℚ), (50 : ℚ) * 8 / (1024 * 1024))] := by
    have g1 : getSpanAttribute cxSpanZero "total_files" (some (.intV 0))
        = some (.intV 0) := by decide
    have g2 : getSpanAttribute cxSpanZero "total_bytes" (some (.intV 0))
        = some (.intV 5) := by decide
    have g3 : getSpanAttribute cxSpanTen "total_files" (some (.intV 0))
        = some (.intV 10) := by decide
    have g4 : getSpanAttribute cxSpanTen "total_bytes" (some (.intV 0))
        = some (.intV 100) := by decide
    have d1 : getSpanDurationMs cxSpanZero = 1000 := by
      norm_num [getSpanDurationMs, cxSpanZero]
    have d2 : getSpanDurationMs cxSpanTen = 2000 := by
      norm_num [getSpanDurationMs, cxSpanTen]
    simp only [throughputPerSpan, List.filterMap_cons, List.filterMap_nil,
      g1, g2, g3, g4, d1, d2, pyIntOpt, pyInt]
    norm_num
  rw [hL, hR]
  simp

/-- Witness for C3's amended theorem: one span with latency 1000 ms and
paired file count 10 (byte count 1) yields 10.0 files per second. -/
theorem client_throughput_aligned_witness :
    (extractTruthyInts [wSpanTen] "total_files").length = [wSpanTen].length
    ∧ (extractTruthyInts [wSpanTen] "total_bytes").length = [wSpanTen].length
    ∧ clientThroughput [wSpanTen] = .ok (throughputPerSpan [wSpanTen])
    ∧ throughputPerSpan [wSpanTen]
        = [((10 : ℚ), (1 : ℚ), (1 : ℚ) * 8 / (1024 * 1024))] := by
  refine ⟨by decide, by decide,
    (client_throughput_aligned_per_span [wSpanTen] (by decide) (by decide)).1,
    ?_⟩
  have g1 : getSpanAttribute wSpanTen "total_files" (some (.intV 0))
      = some (.intV 10) := by decide
  have g2 : getSpanAttribute wSpanTen "total_bytes" (some (.intV 0))
      = some (.intV 1) := by decide
  have d1 : getSpanDurationMs wSpanTen = 1000 := by
    norm_num [getSpanDurationMs, wSpanTen]
  simp only [throughputPerSpan, List.filterMap_cons, List.filterMap_nil,
    g1, g2, d1, pyIntOpt, pyInt]
  norm_num
